import Mathlib

/-!
Verification of the WebFiles file-sharing server (src/main.go) against its
natural-language specification.

The development shallowly embeds the metadata-consistent file store: the
`FileMeta` record (main.go:20-24), the four HTTP handlers
(`uploadHandler` main.go:162-224, `filesHandler` main.go:226-231,
`downloadHandler` main.go:233-279, `deleteHandler` main.go:281-324) and the
metadata persistence functions (`saveMetadataUnlocked` main.go:330-350,
`loadMetadata` main.go:380-399).

Modelling conventions:
- Go `string` is Lean `String`; Go `int64` sizes are `Int` (no arithmetic is
  performed on them, so overflow is irrelevant).
- The filesystem below the upload directory is a `List String` of the paths
  that currently exist; `os.Stat` success is list membership, `os.Remove` is
  `List.erase`.
- Outcomes of the fallible external calls that the handlers merely branch on
  (`c.SaveFile`, `os.WriteFile` inside the persist, `os.Remove` failing with
  an error other than not-exist) are Boolean oracle parameters, matching the
  handler's `if err != nil` branches.
- Go's `filepath.Join("./uploads", name)` (main.go:185) and the literal
  `fmt.Sprintf("%s/%s", uploadDir, finalFilename)` (main.go:197) both denote
  the directory entry `uploads/<name>` of the process working directory; the
  embedding uses the canonical spelling `"uploads/" ++ name` for both.  This
  is faithful for every name free of `.` and `..` path components (Join also
  collapses such components; no claim settled here depends on that case).
-/

namespace WebFiles

/-- One catalog entry: Go struct `FileMeta` (main.go:20-24).  `Path` carries
the JSON tag `json:"-"`, so it is invisible to every JSON serialization of
the struct. -/
structure FileMeta where
  Filename : String
  Size : Int
  Path : String
deriving DecidableEq, Repr

/-- What one `FileMeta` looks like through JSON: only the `filename` and
`size` keys exist, because `Path` is tagged `json:"-"` (main.go:23).  This is
both the shape of one element of the persisted index file and of one element
of the `/files` response. -/
structure IndexEntry where
  filename : String
  size : Int
deriving DecidableEq, Repr

/-- The observable server state between requests: the in-memory catalog
(`webfiles.Files`, main.go:40) and the set of paths present on disk under the
upload area. -/
structure World where
  catalog : List FileMeta
  disk : List String
deriving DecidableEq, Repr

/-- `uploadDir` (main.go:36), canonicalized (see header note). -/
def uploadDir : String := "uploads"

/-- The on-disk path of a stored name: `filepath.Join(uploadDir, name)` at
main.go:185/306, `fmt.Sprintf("%s/%s", uploadDir, name)` at main.go:197. -/
def uploadPath (name : String) : String := uploadDir ++ "/" ++ name

/-- Go's `filepath.Base` on a Unix path, as called at main.go:178:
empty input gives `.`; otherwise trailing slashes are stripped, everything up
to the last remaining slash is dropped, and an all-slash input gives `/`. -/
def goBase (path : String) : String :=
  if path = "" then "."
  else if ((path.toList.reverse.dropWhile (fun c => c = '/')).takeWhile
      (fun c => c ≠ '/')).isEmpty then "/"
  else String.mk ((path.toList.reverse.dropWhile (fun c => c = '/')).takeWhile
      (fun c => c ≠ '/')).reverse

/-- `strings.LastIndex(originalName, ".")` split (main.go:192-195): the part
before the last dot and the part from the last dot on (dot included); when no
dot exists the whole name is the stem and the extension is empty. -/
def splitExt (s : String) : String × String :=
  let r := s.toList.reverse
  if r.contains '.' then
    (String.mk ((r.dropWhile (fun c => c ≠ '.')).tail.reverse),
     String.mk ('.' :: (r.takeWhile (fun c => c ≠ '.')).reverse))
  else (s, "")

/-- The disambiguated name `fmt.Sprintf("%s_%d%s", name, time.Now().UnixNano(), ext)`
(main.go:196), built from the RAW original name's stem and extension. -/
def tsName (originalName : String) (now : Nat) : String :=
  (splitExt originalName).1 ++ "_" ++ toString now ++ (splitExt originalName).2

/-- The final stored filename chosen by upload (main.go:184-202): the
sanitized base name, unless a file with that name already exists ON DISK
(`os.Stat(filePath)` succeeding, main.go:188), in which case the
timestamp-disambiguated name derived from the raw original name. -/
def finalFilename (disk : List String) (originalName : String) (now : Nat) : String :=
  let cleaned := goBase originalName
  if disk.contains (uploadPath cleaned) then tsName originalName now else cleaned

/-- Result of one upload request, as classified by the spec's error
taxonomy.  `invalidName` is the 400 at main.go:181, `diskWriteFailure` the
500 at main.go:206, `metadataPersistFailure` the 500 at main.go:219,
`uploaded` the success JSON at main.go:223. -/
inductive UploadResult where
  | invalidName
  | diskWriteFailure
  | metadataPersistFailure
  | uploaded (filename : String) (size : Int)
deriving DecidableEq, Repr

/-- `uploadHandler` (main.go:162-224) from the sanitization step on.
(`c.FormFile` and `os.MkdirAll` failures abort earlier with 400/500 and no
state change; they are outside the claims.)  `writeOk` is whether
`c.SaveFile` succeeds, `persistOk` whether `saveMetadata` succeeds. -/
def uploadHandler (w : World) (originalName : String) (size : Int) (now : Nat)
    (writeOk persistOk : Bool) : World × UploadResult :=
  let cleaned := goBase originalName
  if cleaned == "." || cleaned == "/" then (w, .invalidName)
  else
    let fname := finalFilename w.disk originalName now
    let fpath := uploadPath fname
    if !writeOk then (w, .diskWriteFailure)
    else
      let meta : FileMeta := ⟨fname, size, fpath⟩
      let w' : World := ⟨w.catalog ++ [meta], w.disk ++ [fpath]⟩
      if persistOk then (w', .uploaded fname size) else (w', .metadataPersistFailure)

/-- `filesHandler` (main.go:226-231): the JSON of `webfiles.Files`, in which
each record shows only `filename` and `size` (`Path` is `json:"-"`). -/
def filesHandler (w : World) : List IndexEntry :=
  w.catalog.map (fun m => ⟨m.Filename, m.Size⟩)

/-- The first-match catalog search loop (main.go:251-259 and 295-300). -/
def findByName (files : List FileMeta) (name : String) : Option FileMeta :=
  files.find? (fun f => f.Filename == name)

/-- Result of one download request: the 404 at main.go:264, the 404 at
main.go:272, or the `c.Download(path, filename)` stream at main.go:278. -/
inductive DownloadResult where
  | notFoundMetadata
  | notFoundDisk
  | stream (path : String) (suggestedName : String)
deriving DecidableEq, Repr

/-- `downloadHandler` (main.go:233-279), after URL-decoding: first-match
lookup by filename, then `os.Stat(foundFile.Path)` existence check, then
stream with the stored filename as the suggested save name. -/
def downloadHandler (w : World) (requested : String) : DownloadResult :=
  match findByName w.catalog requested with
  | none => .notFoundMetadata
  | some f => if w.disk.contains f.Path then .stream f.Path f.Filename else .notFoundDisk

/-- Result of one delete request: the 404 at main.go:303, the 500 at
main.go:319, or the updated file list returned at main.go:323. -/
inductive DeleteResult where
  | notFound
  | persistFailed
  | deleted (files : List FileMeta)
deriving DecidableEq, Repr

/-- The slice splice `append(files[:i], files[i+1:]...)` at main.go:313,
where `i` is the first index whose record matches: removal of the first
record with the given filename. -/
def removeFirstByName (name : String) : List FileMeta → List FileMeta
  | [] => []
  | f :: rest => if f.Filename == name then rest else f :: removeFirstByName name rest

/-- `deleteHandler` (main.go:281-324), after URL-decoding: first-match
lookup; disk removal at `filepath.Join(uploadDir, requested)` whose failure
(other than the file already being absent) is only logged (`removeOk`
oracle); catalog removal proceeds regardless; then the index persist
(`persistOk` oracle) whose failure is a 500 after the catalog was already
mutated. -/
def deleteHandler (w : World) (requested : String) (removeOk persistOk : Bool) :
    World × DeleteResult :=
  match findByName w.catalog requested with
  | none => (w, .notFound)
  | some _ =>
    let disk' := if removeOk then w.disk.erase (uploadPath requested) else w.disk
    let catalog' := removeFirstByName requested w.catalog
    let w' : World := ⟨catalog', disk'⟩
    if persistOk then (w', .deleted catalog') else (w', .persistFailed)

/-- `saveMetadataUnlocked` (main.go:330-350): marshals `{files: [...]}` where
each record contributes exactly its `filename` and `size` JSON keys (`Path`
is tagged `json:"-"`, main.go:23, so it is never written). -/
def saveMetadataUnlocked (files : List FileMeta) : List IndexEntry :=
  files.map (fun m => ⟨m.Filename, m.Size⟩)

/-- `loadMetadata` (main.go:380-399): unmarshals the persisted index back
into `webfiles.Files`.  The JSON holds no path (and `json:"-"` would ignore
one anyway), so every reloaded record's `Path` is the Go zero value `""`. -/
def loadMetadata (idx : List IndexEntry) : List FileMeta :=
  idx.map (fun e => ⟨e.filename, e.size, ""⟩)

/-- The list of filenames of a catalog, in order. -/
def filenames (files : List FileMeta) : List String := files.map (fun m => m.Filename)

/-! ### Lock discipline

The spec's concurrency claim is about which program steps run while the
Catalog's mutex (`webfiles.mu`, main.go:28) is held.  Each handler is
straight-line code, so its lock discipline is captured by the ordered list of
its shared-state and disk actions, each tagged with whether the mutex is held
at that point, transcribed from the source. -/

/-- A shared-state or disk action performed by a handler. -/
inductive Action where
  | statDisk
  | writeDisk
  | removeDisk
  | readCatalog
  | mutateCatalog
  | persistIndex
deriving DecidableEq, Repr

/-- One step of a handler: the action and whether `webfiles.mu` is held. -/
structure Step where
  action : Action
  lockHeld : Bool
deriving DecidableEq, Repr

/-- `uploadHandler` steps: the collision `os.Stat` (main.go:188), the
`c.SaveFile` disk write (main.go:204) and the catalog append (main.go:217)
all run with NO lock held — the handler never touches `webfiles.mu`; only
`saveMetadata` (main.go:218 calling main.go:354-378) locks, around the index
persist alone. -/
def uploadSteps : List Step :=
  [⟨.statDisk, false⟩, ⟨.writeDisk, false⟩, ⟨.mutateCatalog, false⟩, ⟨.persistIndex, true⟩]

/-- `filesHandler` steps: lock at main.go:227, catalog read at main.go:230. -/
def filesSteps : List Step := [⟨.readCatalog, true⟩]

/-- `downloadHandler` steps: lock at main.go:246, search loop main.go:251-259,
`os.Stat` main.go:269, all before the deferred unlock. -/
def downloadSteps : List Step := [⟨.readCatalog, true⟩, ⟨.statDisk, true⟩]

/-- `deleteHandler` steps: lock at main.go:291, search main.go:295-300,
`os.Remove` main.go:307, splice main.go:313, persist main.go:317, all before
the deferred unlock. -/
def deleteSteps : List Step :=
  [⟨.readCatalog, true⟩, ⟨.removeDisk, true⟩, ⟨.mutateCatalog, true⟩, ⟨.persistIndex, true⟩]

/-! ## Helper lemmas -/

/-- The first-match search fails exactly when no record carries the name. -/
theorem findByName_eq_none_iff (files : List FileMeta) (name : String) :
    findByName files name = none ↔ name ∉ filenames files := by
  simp only [findByName, List.find?_eq_none, beq_iff_eq, filenames, List.mem_map]
  push_neg
  aesop

/-- When the catalog's filenames are pairwise distinct, removing the first
record with a name leaves no record with that name. -/
theorem not_mem_filenames_removeFirst (name : String) (l : List FileMeta)
    (h : (filenames l).Nodup) : name ∉ filenames (removeFirstByName name l) := by
  induction l with
  | nil => simp [removeFirstByName, filenames]
  | cons f rest ih =>
    simp only [filenames, List.map_cons, List.nodup_cons] at h
    by_cases hf : f.Filename = name
    · simp only [removeFirstByName, hf, beq_self_eq_true, if_true]
      rw [← hf]
      exact fun hm => h.1 hm
    · have hb : (f.Filename == name) = false := beq_eq_false_iff_ne.mpr hf
      simp only [removeFirstByName, hb, Bool.false_eq_true, if_false, filenames,
        List.map_cons, List.mem_cons]
      rintro (he | hm)
      · exact hf he.symm
      · exact ih h.2 hm

/-- The disambiguated name always carries the underscore inserted by the
format string at main.go:196. -/
theorem underscore_mem_tsName (o : String) (n : Nat) : '_' ∈ (tsName o n).data := by
  unfold tsName
  rw [String.data_append, String.data_append, String.data_append]
  simp

/-- The disambiguated name is never empty, never dot, never slash. -/
theorem tsName_wellformed (o : String) (n : Nat) :
    tsName o n ≠ "" ∧ tsName o n ≠ "." ∧ tsName o n ≠ "/" := by
  have h := underscore_mem_tsName o n
  refine ⟨?_, ?_, ?_⟩ <;> intro he <;> rw [he] at h <;> simp at h

/-- When `filepath.Base` returns neither `.` nor `/`, its result is nonempty
and free of path separators. -/
theorem goBase_wellformed (s : String) (h1 : goBase s ≠ ".") (h2 : goBase s ≠ "/") :
    goBase s ≠ "" ∧ '/' ∉ (goBase s).data := by
  by_cases hs : s = ""
  · exact absurd (by rw [goBase, if_pos hs]) h1
  · by_cases hb : ((s.toList.reverse.dropWhile (fun c => c = '/')).takeWhile
        (fun c => c ≠ '/')).isEmpty = true
    · exact absurd (by rw [goBase, if_neg hs, if_pos hb]) h2
    · have hg : goBase s = String.mk ((s.toList.reverse.dropWhile (fun c => c = '/')).takeWhile
          (fun c => c ≠ '/')).reverse := by
        rw [goBase, if_neg hs, if_neg hb]
      rw [hg]
      constructor
      · intro he
        have hd : ((s.toList.reverse.dropWhile (fun c => c = '/')).takeWhile
            (fun c => c ≠ '/')).reverse = [] := congrArg String.data he
        rw [List.reverse_eq_nil_iff] at hd
        rw [hd] at hb
        exact hb rfl
      · intro hm
        rw [show (String.mk ((s.toList.reverse.dropWhile (fun c => c = '/')).takeWhile
            (fun c => c ≠ '/')).reverse).data = ((s.toList.reverse.dropWhile
            (fun c => c = '/')).takeWhile (fun c => c ≠ '/')).reverse from rfl,
          List.mem_reverse] at hm
        have := List.mem_takeWhile_imp hm
        simp at this

/-- The final stored name is never empty, dot or slash; when the
non-collision branch is taken it is also separator-free. -/
theorem finalFilename_wellformed (disk : List String) (orig : String) (now : Nat)
    (h1 : goBase orig ≠ ".") (h2 : goBase orig ≠ "/") :
    finalFilename disk orig now ≠ "" ∧ finalFilename disk orig now ≠ "."
    ∧ finalFilename disk orig now ≠ "/"
    ∧ (disk.contains (uploadPath (goBase orig)) = false →
        '/' ∉ (finalFilename disk orig now).data) := by
  cases hc : disk.contains (uploadPath (goBase orig)) with
  | true =>
    have hf : finalFilename disk orig now = tsName orig now := by
      rw [finalFilename]
      rw [show goBase orig = goBase orig from rfl, hc]
      rfl
    obtain ⟨a, b, c⟩ := tsName_wellformed orig now
    rw [hf]
    refine ⟨a, b, c, fun hfalse => ?_⟩
    simp [hc] at hfalse
  | false =>
    have hf : finalFilename disk orig now = goBase orig := by
      rw [finalFilename, hc]
      rfl
    obtain ⟨a, b⟩ := goBase_wellformed orig h1 h2
    rw [hf]
    exact ⟨a, h1, h2, fun _ => b⟩

/-! ## Theorems settling the claims -/

/-- Claim C1, counterexample.  The collision check at main.go:188 consults
the DISK (`os.Stat`), not the catalog.  From a state whose catalog holds a
record named `a.txt` whose backing file is absent from disk (a state the spec
itself admits: a backing file "has since vanished externally", spec 7), a
second upload of `a.txt` is NOT disambiguated, and the catalog ends with two
live records both named `a.txt`.  So upload does not generate a disambiguated
name whenever a record with the sanitized name exists, and filename
uniqueness is not preserved. -/
theorem upload_can_duplicate_filename :
    List.Nodup (filenames (⟨[⟨"a.txt", 12, "uploads/a.txt"⟩], []⟩ : World).catalog)
    ∧ filenames (uploadHandler ⟨[⟨"a.txt", 12, "uploads/a.txt"⟩], []⟩ "a.txt" 5 7 true true).1.catalog
        = ["a.txt", "a.txt"]
    ∧ decide (List.Nodup (filenames
        (uploadHandler ⟨[⟨"a.txt", 12, "uploads/a.txt"⟩], []⟩ "a.txt" 5 7 true true).1.catalog))
        = false := by
  decide

/-- Claim C2: the persist/load round-trip does NOT reproduce the catalog
state.  `FileMeta.Path` is tagged `json:"-"` (main.go:23), so
`saveMetadataUnlocked` never writes it and `loadMetadata` reloads every
record with `Path = ""`: the record is changed by the round-trip.  (After a
restart, `downloadHandler` stats the empty path, which never exists, so every
download of a reloaded record fails with the disk-level not-found.) -/
theorem save_load_drops_path :
    loadMetadata (saveMetadataUnlocked [⟨"a.txt", 12, "uploads/a.txt"⟩])
      = [⟨"a.txt", 12, ""⟩]
    ∧ decide (loadMetadata (saveMetadataUnlocked [⟨"a.txt", 12, "uploads/a.txt"⟩])
        = [⟨"a.txt", 12, "uploads/a.txt"⟩]) = false := by
  decide

/-- Claim C3: the upload handler is NOT a single critical section.  Its
collision stat, its disk write and its catalog append all execute with the
Catalog's mutex NOT held (the lock is taken only inside `saveMetadata`,
around the index persist), while delete, download and list do hold the lock
for every step.  Two concurrent uploads can therefore interleave their
catalog mutations. -/
theorem upload_catalog_mutation_unlocked :
    (⟨.mutateCatalog, false⟩ : Step) ∈ uploadSteps
    ∧ (⟨.writeDisk, false⟩ : Step) ∈ uploadSteps
    ∧ (⟨.statDisk, false⟩ : Step) ∈ uploadSteps
    ∧ uploadSteps.all (fun s => s.lockHeld) = false
    ∧ deleteSteps.all (fun s => s.lockHeld) = true
    ∧ downloadSteps.all (fun s => s.lockHeld) = true
    ∧ filesSteps.all (fun s => s.lockHeld) = true := by
  decide

/-- Claim C4, counterexample.  The collision-disambiguation branch
(main.go:190-196) splits the RAW original name, not the sanitized one: for
raw name `sub/a.txt` uploaded while `uploads/a.txt` exists on disk, the
stored final filename is `sub/a_99.txt` (timestamp 99), which contains a path
separator. -/
theorem upload_stores_name_with_separator :
    (uploadHandler ⟨[⟨"a.txt", 12, "uploads/a.txt"⟩], ["uploads/a.txt"]⟩
        "sub/a.txt" 5 99 true true).2 = .uploaded "sub/a_99.txt" 5
    ∧ filenames (uploadHandler ⟨[⟨"a.txt", 12, "uploads/a.txt"⟩], ["uploads/a.txt"]⟩
        "sub/a.txt" 5 99 true true).1.catalog = ["a.txt", "sub/a_99.txt"]
    ∧ '/' ∈ "sub/a_99.txt".data := by
  decide

/-- Claim C10: the sanitization step maps the raw name `..` to `..`
(`filepath.Base("..") = ".."`), and the validity check at main.go:179 rejects
only `.` and `/`, so `..` is not rejected and upload proceeds past the check
(here all the way to success on an empty world). -/
theorem dotdot_passes_sanitize :
    goBase ".." = ".."
    ∧ ((goBase ".." == ".") || (goBase ".." == "/")) = false
    ∧ ((uploadHandler ⟨[], []⟩ ".." 3 7 true true).2 == UploadResult.invalidName) = false := by
  decide

/-- Claim C1, amended.  Upload preserves filename uniqueness provided the
catalog and disk agree (every cataloged filename's file is present in the
upload directory) and the timestamp-disambiguated name is fresh (the source
deliberately does not re-check it, main.go:196; the spec calls a second
collision astronomically unlikely). -/
theorem upload_preserves_filename_uniqueness
    (w : World) (orig : String) (size : Int) (now : Nat) (writeOk persistOk : Bool)
    (hdisk : ∀ m ∈ w.catalog, uploadPath m.Filename ∈ w.disk)
    (hfresh : tsName orig now ∉ filenames w.catalog)
    (hnodup : (filenames w.catalog).Nodup) :
    (filenames (uploadHandler w orig size now writeOk persistOk).1.catalog).Nodup := by
  cases hinv : (goBase orig == "." || goBase orig == "/") with
  | true => simpa [uploadHandler, hinv] using hnodup
  | false =>
    cases writeOk with
    | false => simpa [uploadHandler, hinv] using hnodup
    | true =>
      have hcat : (uploadHandler w orig size now true persistOk).1.catalog
          = w.catalog ++ [⟨finalFilename w.disk orig now, size,
              uploadPath (finalFilename w.disk orig now)⟩] := by
        simp [uploadHandler, hinv]
        cases persistOk <;> simp
      rw [hcat, filenames, List.map_append, List.nodup_append]
      refine ⟨hnodup, by simp, ?_⟩
      have hnotmem : finalFilename w.disk orig now ∉ filenames w.catalog := by
        cases hc : w.disk.contains (uploadPath (goBase orig)) with
        | true =>
          have hf : finalFilename w.disk orig now = tsName orig now := by
            rw [finalFilename, hc]; rfl
          rw [hf]; exact hfresh
        | false =>
          have hf : finalFilename w.disk orig now = goBase orig := by
            rw [finalFilename, hc]; rfl
          rw [hf]
          intro hmem
          obtain ⟨m, hm, he⟩ := List.mem_map.mp hmem
          have := hdisk m hm
          rw [he] at this
          have : w.disk.contains (uploadPath (goBase orig)) = true := by
            simpa using this
          rw [this] at hc
          exact absurd hc (by decide)
      intro a ha hb
      simp only [filenames] at hnotmem
      simp at hb
      rw [hb] at ha
      exact hnotmem ha

/-- Witness for the amended C1 theorem at a concrete input: catalog and disk
agree, the fresh upload of `b.txt` keeps the filenames pairwise distinct. -/
theorem upload_preserves_filename_uniqueness_witness :
    (∀ m ∈ ({catalog := [⟨"a.txt", 12, "uploads/a.txt"⟩], disk := ["uploads/a.txt"]} : World).catalog,
        uploadPath m.Filename ∈ (["uploads/a.txt"] : List String))
    ∧ tsName "b.txt" 7 ∉ filenames [⟨"a.txt", 12, "uploads/a.txt"⟩]
    ∧ (filenames [(⟨"a.txt", 12, "uploads/a.txt"⟩ : FileMeta)]).Nodup
    ∧ (filenames (uploadHandler ⟨[⟨"a.txt", 12, "uploads/a.txt"⟩], ["uploads/a.txt"]⟩
        "b.txt" 1 7 true true).1.catalog).Nodup :=
  ⟨by decide, by decide, by decide,
    upload_preserves_filename_uniqueness ⟨[⟨"a.txt", 12, "uploads/a.txt"⟩], ["uploads/a.txt"]⟩
      "b.txt" 1 7 true true (by decide) (by decide) (by decide)⟩

/-- Claim C4, amended.  Every record stored by an accepted upload has a final
filename that is never empty, never `.` and never `/`; it is additionally
free of path separators whenever the non-collision branch was taken, but the
collision branch can inherit separators from the raw original name (see the
counterexample). -/
theorem upload_final_name_wellformed
    (w : World) (orig : String) (size : Int) (now : Nat) (persistOk : Bool)
    (hv : ((goBase orig == ".") || (goBase orig == "/")) = false) :
    ∃ m : FileMeta,
      (uploadHandler w orig size now true persistOk).1.catalog = w.catalog ++ [m]
      ∧ m.Filename ≠ "" ∧ m.Filename ≠ "." ∧ m.Filename ≠ "/"
      ∧ (w.disk.contains (uploadPath (goBase orig)) = false → '/' ∉ m.Filename.data) := by
  obtain ⟨hv1, hv2⟩ := Bool.or_eq_false_iff.mp hv
  obtain ⟨a, b, c, d⟩ := finalFilename_wellformed w.disk orig now
    (beq_eq_false_iff_ne.mp hv1) (beq_eq_false_iff_ne.mp hv2)
  refine ⟨⟨finalFilename w.disk orig now, size, uploadPath (finalFilename w.disk orig now)⟩,
    ?_, a, b, c, d⟩
  simp [uploadHandler, hv]
  cases persistOk <;> simp

/-- Witness for the amended C4 theorem at a concrete input. -/
theorem upload_final_name_wellformed_witness :
    ((goBase "b.txt" == ".") || (goBase "b.txt" == "/")) = false
    ∧ ∃ m : FileMeta,
        (uploadHandler ⟨[], []⟩ "b.txt" 2 7 true true).1.catalog = [] ++ [m]
        ∧ m.Filename ≠ "" ∧ m.Filename ≠ "." ∧ m.Filename ≠ "/"
        ∧ (List.contains ([] : List String) (uploadPath (goBase "b.txt")) = false →
            '/' ∉ m.Filename.data) :=
  ⟨by decide, upload_final_name_wellformed ⟨[], []⟩ "b.txt" 2 7 true (by decide)⟩

/-- Claim C5: download discriminates its errors exactly as specified.  The
first-match lookup fails precisely when no catalog record carries the
requested filename, and then the metadata-level not-found is returned; when a
record matches but its stored path is absent from disk the disk-level
not-found is returned; otherwise the bytes at the stored path are streamed
with the stored filename as the suggested save name. -/
theorem download_discrimination (w : World) (requested : String) :
    (findByName w.catalog requested = none ↔ requested ∉ filenames w.catalog)
    ∧ (findByName w.catalog requested = none → downloadHandler w requested = .notFoundMetadata)
    ∧ ∀ f, findByName w.catalog requested = some f →
        (w.disk.contains f.Path = false → downloadHandler w requested = .notFoundDisk)
        ∧ (w.disk.contains f.Path = true →
            downloadHandler w requested = .stream f.Path f.Filename) := by
  refine ⟨findByName_eq_none_iff _ _, ?_, ?_⟩
  · intro h
    simp [downloadHandler, h]
  · intro f hf
    constructor
    · intro hd
      have hd2 : f.Path ∉ w.disk := by simpa using hd
      simp [downloadHandler, hf, hd2]
    · intro hd
      have hd2 : f.Path ∈ w.disk := by simpa using hd
      simp [downloadHandler, hf, hd2]

/-- Witness for C5: the three download outcomes at concrete worlds. -/
theorem download_discrimination_witness :
    downloadHandler ⟨[⟨"a.txt", 12, "uploads/a.txt"⟩], ["uploads/a.txt"]⟩ "b.txt"
      = .notFoundMetadata
    ∧ downloadHandler ⟨[⟨"a.txt", 12, "uploads/a.txt"⟩], ["uploads/a.txt"]⟩ "a.txt"
      = .stream "uploads/a.txt" "a.txt"
    ∧ downloadHandler ⟨[⟨"a.txt", 12, "uploads/a.txt"⟩], []⟩ "a.txt" = .notFoundDisk :=
  ⟨(download_discrimination ⟨[⟨"a.txt", 12, "uploads/a.txt"⟩], ["uploads/a.txt"]⟩ "b.txt").2.1
      (by decide),
   ((download_discrimination ⟨[⟨"a.txt", 12, "uploads/a.txt"⟩], ["uploads/a.txt"]⟩ "a.txt").2.2
      ⟨"a.txt", 12, "uploads/a.txt"⟩ (by decide)).2 (by decide),
   ((download_discrimination ⟨[⟨"a.txt", 12, "uploads/a.txt"⟩], []⟩ "a.txt").2.2
      ⟨"a.txt", 12, "uploads/a.txt"⟩ (by decide)).1 (by decide)⟩

/-- Claim C6: deleting a filename present in a duplicate-free catalog does
not report not-found, removes the record from the catalog (so it is gone from
subsequent listings), does so identically whether or not the disk removal
succeeds, and a second delete of the same name reports not-found.  (The
catalog mutation happens at main.go:313 before the persist at main.go:317, so
it stands in both persist outcomes.) -/
theorem delete_removes_record
    (w : World) (requested : String) (ro po ro2 po2 : Bool)
    (hnodup : (filenames w.catalog).Nodup)
    (hmem : requested ∈ filenames w.catalog) :
    (deleteHandler w requested ro po).2 ≠ .notFound
    ∧ requested ∉ filenames (deleteHandler w requested ro po).1.catalog
    ∧ (deleteHandler w requested ro po).1.catalog
        = (deleteHandler w requested (!ro) po).1.catalog
    ∧ (deleteHandler (deleteHandler w requested ro po).1 requested ro2 po2).2
        = .notFound := by
  cases hfo : findByName w.catalog requested with
  | none => exact absurd hmem ((findByName_eq_none_iff _ _).mp hfo)
  | some f =>
    have hcat : ∀ ro' po' : Bool, (deleteHandler w requested ro' po').1.catalog
        = removeFirstByName requested w.catalog := by
      intro ro' po'
      simp [deleteHandler, hfo]
      cases po' <;> simp
    have hnotmem := not_mem_filenames_removeFirst requested w.catalog hnodup
    refine ⟨?_, ?_, ?_, ?_⟩
    · simp [deleteHandler, hfo]
      cases po <;> simp
    · rw [hcat]
      exact hnotmem
    · rw [hcat, hcat]
    · have hnone : findByName (deleteHandler w requested ro po).1.catalog requested = none := by
        rw [findByName_eq_none_iff, hcat]
        exact hnotmem
      have hlem : ∀ (w2 : World) (a b : Bool), findByName w2.catalog requested = none →
          (deleteHandler w2 requested a b).2 = .notFound := by
        intro w2 a b h
        simp [deleteHandler, h]
      exact hlem _ ro2 po2 hnone

/-- Witness for C6 at a concrete one-record world. -/
theorem delete_removes_record_witness :
    (filenames [(⟨"a.txt", 12, "uploads/a.txt"⟩ : FileMeta)]).Nodup
    ∧ "a.txt" ∈ filenames [(⟨"a.txt", 12, "uploads/a.txt"⟩ : FileMeta)]
    ∧ ((deleteHandler ⟨[⟨"a.txt", 12, "uploads/a.txt"⟩], ["uploads/a.txt"]⟩ "a.txt" true true).2
        ≠ .notFound
      ∧ "a.txt" ∉ filenames (deleteHandler ⟨[⟨"a.txt", 12, "uploads/a.txt"⟩],
          ["uploads/a.txt"]⟩ "a.txt" true true).1.catalog
      ∧ (deleteHandler ⟨[⟨"a.txt", 12, "uploads/a.txt"⟩], ["uploads/a.txt"]⟩
          "a.txt" true true).1.catalog
          = (deleteHandler ⟨[⟨"a.txt", 12, "uploads/a.txt"⟩], ["uploads/a.txt"]⟩
              "a.txt" (!true) true).1.catalog
      ∧ (deleteHandler (deleteHandler ⟨[⟨"a.txt", 12, "uploads/a.txt"⟩], ["uploads/a.txt"]⟩
          "a.txt" true true).1 "a.txt" true true).2 = .notFound) :=
  ⟨by decide, by decide,
    delete_removes_record ⟨[⟨"a.txt", 12, "uploads/a.txt"⟩], ["uploads/a.txt"]⟩
      "a.txt" true true true true (by decide) (by decide)⟩

/-- Claim C7: when the disk write succeeds and the index persist fails, the
upload surfaces the distinct metadata-persist failure (the 500 with the
dedicated message at main.go:219, a constructor of its own here, separate
from the disk-write failure), and the in-memory catalog keeps the newly
appended record (the append at main.go:217 precedes the persist and is never
rolled back). -/
theorem upload_persist_failure_surfaced
    (w : World) (orig : String) (size : Int) (now : Nat)
    (hv : ((goBase orig == ".") || (goBase orig == "/")) = false) :
    (uploadHandler w orig size now true false).2 = .metadataPersistFailure
    ∧ (uploadHandler w orig size now true false).1.catalog
        = w.catalog ++ [⟨finalFilename w.disk orig now, size,
            uploadPath (finalFilename w.disk orig now)⟩] := by
  simp [uploadHandler, hv]

/-- Witness for C7 at a concrete input. -/
theorem upload_persist_failure_surfaced_witness :
    ((goBase "a.txt" == ".") || (goBase "a.txt" == "/")) = false
    ∧ (uploadHandler ⟨[], []⟩ "a.txt" 12 0 true false).2 = .metadataPersistFailure
    ∧ (uploadHandler ⟨[], []⟩ "a.txt" 12 0 true false).1.catalog
        = [] ++ [⟨finalFilename [] "a.txt" 0, 12, uploadPath (finalFilename [] "a.txt" 0)⟩] :=
  ⟨by decide, upload_persist_failure_surfaced ⟨[], []⟩ "a.txt" 12 0 (by decide)⟩

/-- Claim C8: when the disk write fails, upload returns the disk-write
failure (the 500 at main.go:206) and the whole world — in particular the
catalog — is left exactly as it was: the handler returns before the append at
main.go:217. -/
theorem upload_disk_failure_no_mutation
    (w : World) (orig : String) (size : Int) (now : Nat) (persistOk : Bool)
    (hv : ((goBase orig == ".") || (goBase orig == "/")) = false) :
    uploadHandler w orig size now false persistOk = (w, .diskWriteFailure) := by
  simp [uploadHandler, hv]

/-- Witness for C8 at a concrete nonempty world. -/
theorem upload_disk_failure_no_mutation_witness :
    ((goBase "a.txt" == ".") || (goBase "a.txt" == "/")) = false
    ∧ uploadHandler ⟨[⟨"b.txt", 3, "uploads/b.txt"⟩], ["uploads/b.txt"]⟩ "a.txt" 12 0 false true
        = (⟨[⟨"b.txt", 3, "uploads/b.txt"⟩], ["uploads/b.txt"]⟩, .diskWriteFailure) :=
  ⟨by decide, upload_disk_failure_no_mutation ⟨[⟨"b.txt", 3, "uploads/b.txt"⟩],
      ["uploads/b.txt"]⟩ "a.txt" 12 0 true (by decide)⟩

/-- Claim C9: the collision scenario, for every disambiguation timestamp.
From the empty world, uploading `a.txt` (12 bytes) lists exactly that entry;
uploading `a.txt` again (5 bytes) leaves the original entry unchanged and
adds one entry named `tsName "a.txt" ts` (which differs from `a.txt`) of size
5; deleting `a.txt` leaves only the suffixed entry. -/
theorem collision_scenario (ts : Nat) :
    filesHandler (uploadHandler ⟨[], []⟩ "a.txt" 12 0 true true).1 = [⟨"a.txt", 12⟩]
    ∧ filesHandler (uploadHandler (uploadHandler ⟨[], []⟩ "a.txt" 12 0 true true).1
        "a.txt" 5 ts true true).1 = [⟨"a.txt", 12⟩, ⟨tsName "a.txt" ts, 5⟩]
    ∧ (tsName "a.txt" ts == "a.txt") = false
    ∧ filesHandler (deleteHandler (uploadHandler (uploadHandler ⟨[], []⟩ "a.txt" 12 0 true true).1
        "a.txt" 5 ts true true).1 "a.txt" true true).1 = [⟨tsName "a.txt" ts, 5⟩] := by
  refine ⟨by decide, rfl, ?_, rfl⟩
  apply beq_eq_false_iff_ne.mpr
  intro he
  have hlen := congrArg String.length he
  rw [show tsName "a.txt" ts = "a" ++ "_" ++ toString ts ++ ".txt" from rfl] at hlen
  rw [String.length_append, String.length_append, String.length_append] at hlen
  rw [show ("a" : String).length = 1 from rfl, show ("_" : String).length = 1 from rfl,
    show (".txt" : String).length = 4 from rfl, show ("a.txt" : String).length = 5 from rfl] at hlen
  omega

end WebFiles
